import Mathlib

/-!
Verification of the GCD command-line program (src/src/main.rs).

The program parses its command-line arguments as base-10 unsigned 64-bit
integers (failing fast on the first bad argument), prints a usage message and
exits with status 1 when no arguments are given, and otherwise folds the
Euclidean `gcd` function over the parsed sequence left to right and prints the
result.  `gcd` asserts that both of its operands are non-zero.

Machine integers are embedded as `Nat`; the `u64` range only matters at the
parsing boundary (the parser rejects values of 2^64 or more) because `gcd`
never produces a value larger than its inputs.  A Rust run-time failure
(a failed assertion, or an `expect` on a parse error) is embedded as an
explicit error value (`none`, `LoopResult.divByZero`, `RunResult.parseError`,
`RunResult.assertFail`).
-/

namespace Basics

/-- Outcome of running the body of the `while` loop of `gcd` to completion
with a given step budget: the loop finished and the function returned `g`;
or the remainder operation `m % n` was about to divide by zero (a Rust
run-time failure); or the budget ran out.  With budget `m + 1` the budget
never runs out (`gcd_loop_fuel_eq`), so the budget-out constructor is an
artifact of the embedding only. -/
inductive LoopResult where
  | value (g : Nat)
  | divByZero
  | fuelOut
deriving DecidableEq

/-- The `while m != 0` loop of `gcd` (src/src/main.rs lines 145-154), with an
explicit step budget.  Each iteration: if `m < n` the two variables are
swapped, then `m` is replaced by `m % n`.  The division-by-zero check models
the Rust panic that `m % n` would raise for `n = 0`; it is never hit when the
initial `n` is non-zero (`gcd_loop_fuel_no_div_by_zero`). -/
def gcd_loop_fuel : Nat → Nat → Nat → LoopResult
  | 0, _, _ => LoopResult.fuelOut
  | fuel + 1, n, m =>
    if m = 0 then LoopResult.value n
    else
      let pq := if m < n then (m, n) else (n, m)
      if pq.1 = 0 then LoopResult.divByZero
      else gcd_loop_fuel fuel pq.1 (pq.2 % pq.1)

/-- The function `gcd` of src/src/main.rs (lines 141-156).  `none` models an
abnormal termination: the entry assertion `assert!(n != 0 && m != 0)` failing,
or (never actually reachable) a division by zero inside the loop. -/
def gcd (n m : Nat) : Option Nat :=
  if n ≠ 0 ∧ m ≠ 0 then
    match gcd_loop_fuel (m + 1) n m with
    | LoopResult.value g => some g
    | _ => none
  else none

/-- One execution of the loop body of `gcd` on the state `(n, m)`, meaningful
when the loop guard `m != 0` holds: if `m < n` swap the operands, then replace
`m` by `m % n` (src/src/main.rs lines 147-153). -/
def codeStep (nm : Nat × Nat) : Nat × Nat :=
  let pq := if nm.2 < nm.1 then (nm.2, nm.1) else nm
  (pq.1, pq.2 % pq.1)

/-- Modelled from the spec: the loop step as the specification words it,
"if the second operand is smaller than the first, swap them; then replace the
second operand with the remainder of dividing the first by the second". -/
def specStep (nm : Nat × Nat) : Nat × Nat :=
  let pq := if nm.2 < nm.1 then (nm.2, nm.1) else nm
  (pq.1, pq.1 % pq.2)

/-- The described loop step after amendment: the operands are ordered and then
the larger one is reduced modulo the smaller one, which lands in the second
position. -/
def orderedStep (nm : Nat × Nat) : Nat × Nat :=
  (min nm.1 nm.2, max nm.1 nm.2 % min nm.1 nm.2)

/-- Strip one leading plus sign, as Rust `u64::from_str` accepts. -/
def stripPlus : List Char → List Char
  | c :: rest => if c = '+' then rest else c :: rest
  | [] => []

/-- Embedding of `u64::from_str` for base-10 input: an optional leading plus
sign followed by one or more ASCII digits, whose value must fit in 64 unsigned
bits; anything else (empty input, other characters, overflow) fails. -/
def parseU64 (s : String) : Option Nat :=
  let ds := stripPlus s.data
  if ds.isEmpty then none
  else if ds.all Char.isDigit then
    let v := ds.foldl (fun acc c => acc * 10 + (c.toNat - '0'.toNat)) 0
    if v < 2 ^ 64 then some v else none
  else none

/-- The argument-parsing loop of `main` (src/src/main.rs lines 101-107):
parse each argument in order, failing on the first bad one (`none` models the
panic raised by `.expect(msg)`). -/
def parseArgs : List String → Option (List Nat)
  | [] => some []
  | a :: rest =>
    match parseU64 a with
    | none => none
    | some v => (parseArgs rest).map (fun tl => v :: tl)

/-- The reduction loop of `main` (src/src/main.rs lines 117-129): starting
from the first parsed number, combine the accumulator with each remaining
number through `gcd`.  `none` models a `gcd` assertion failure aborting the
run. -/
def foldGcd : Nat → List Nat → Option Nat
  | d, [] => some d
  | d, m :: rest =>
    match gcd d m with
    | none => none
    | some d2 => foldGcd d2 rest

/-- The parse-failure message of `main` (src/src/main.rs line 98). -/
def msg : String := "Error parsing the argument"

/-- Observable outcome of one run of `main`: a panic while parsing (with its
message), the usage path (usage message on stderr, exit 1), a `gcd` assertion
failure, or a normal run printing the parsed numbers and their GCD. -/
inductive RunResult where
  | parseError (message : String)
  | usage
  | assertFail
  | output (numbers : List Nat) (d : Nat)
deriving DecidableEq

/-- The behaviour of `main` (src/src/main.rs lines 92-134) on a given
argument list (the program name already stripped, as by `args().skip(1)`).
The final `let _ = gcd(2, 3);` of `main` is executed after the result line is
printed; since `gcd 2 3` evaluates to `some 1` that check never fails. -/
def run (args : List String) : RunResult :=
  match parseArgs args with
  | none => RunResult.parseError msg
  | some numbers =>
    match numbers with
    | [] => RunResult.usage
    | d :: rest =>
      match foldGcd d rest with
      | none => RunResult.assertFail
      | some g =>
        match gcd 2 3 with
        | none => RunResult.assertFail
        | some _ => RunResult.output numbers g

/-- The text printed unconditionally by `main` before the arguments are even
parsed (src/src/main.rs lines 66-69 and 84). -/
def longText : String :=
  "If you have a long message that you don\x27t want to have run into a very long line, you can end the line with a and the newline character and space at the head of the next line will be trimmed."

/-- Rust `Debug` rendering of a vector of numbers, as `{:?}` prints it. -/
def fmtList (l : List Nat) : String :=
  "[" ++ String.intercalate ", " (l.map toString) ++ "]"

/-- The result line printed by `main` (src/src/main.rs line 131). -/
def resultLine (numbers : List Nat) (d : Nat) : String :=
  "The greatest common divisor of " ++ fmtList numbers ++ " is " ++ toString d

/-- The lines `main` writes to standard output before terminating (normally
or by panic): the unconditional long text line, then the result line on a
successful run. -/
def stdoutLines (args : List String) : List String :=
  longText :: (match run args with
    | RunResult.output numbers d => [resultLine numbers d]
    | _ => [])

/-- The lines `main` writes to standard error (src/src/main.rs line 112). -/
def stderrLines (args : List String) : List String :=
  match run args with
  | RunResult.usage => ["Usage: gcd <UINT>+"]
  | _ => []

/-- The exit status of the process: 1 on the usage path, 0 on a successful
run, and an abnormal abort (`none`) when a panic ends the run. -/
def exitCode (args : List String) : Option Nat :=
  match run args with
  | RunResult.usage => some 1
  | RunResult.output _ _ => some 0
  | _ => none

/-- With budget larger than `m`, the loop computes the mathematical GCD
whenever its first operand is non-zero (the invariant the entry assertion
establishes and the body preserves). -/
theorem gcd_loop_fuel_eq : ∀ (fuel n m : Nat), n ≠ 0 → m < fuel →
    gcd_loop_fuel fuel n m = LoopResult.value (Nat.gcd n m) := by
  intro fuel
  induction fuel with
  | zero => intro n m _ hm; omega
  | succ fuel ih =>
    intro n m hn hm
    rw [gcd_loop_fuel]
    by_cases h0 : m = 0
    · subst h0; simp [Nat.gcd_zero_right]
    · simp only [if_neg h0]
      by_cases hlt : m < n
      · simp only [if_pos hlt, if_neg h0]
        rw [ih m (n % m) h0 (by have := Nat.mod_lt n (Nat.pos_of_ne_zero h0); omega)]
        rw [Nat.gcd_comm m (n % m), ← Nat.gcd_rec m n, Nat.gcd_comm m n]
      · simp only [if_neg hlt, if_neg hn]
        rw [ih n (m % n) hn (by have := Nat.mod_lt m (Nat.pos_of_ne_zero hn); omega)]
        rw [Nat.gcd_comm n (m % n), ← Nat.gcd_rec n m]

/-- On non-zero operands `gcd` returns the mathematical GCD. -/
theorem gcd_eq (n m : Nat) (hn : n ≠ 0) (hm : m ≠ 0) :
    gcd n m = some (Nat.gcd n m) := by
  rw [gcd, if_pos ⟨hn, hm⟩, gcd_loop_fuel_eq (m + 1) n m hn (Nat.lt_succ_self m)]

/-- The entry assertion: `gcd` aborts when either operand is zero. -/
theorem gcd_eq_none (n m : Nat) (h : n = 0 ∨ m = 0) : gcd n m = none := by
  rw [gcd, if_neg]
  tauto

/-- The loop never reaches the division-by-zero failure when its first
operand is non-zero: the divisor of every remainder operation is non-zero. -/
theorem gcd_loop_fuel_no_div_by_zero : ∀ (fuel n m : Nat), n ≠ 0 →
    gcd_loop_fuel fuel n m ≠ LoopResult.divByZero := by
  intro fuel
  induction fuel with
  | zero => intro n m _; rw [gcd_loop_fuel]; intro h; exact LoopResult.noConfusion h
  | succ fuel ih =>
    intro n m hn
    rw [gcd_loop_fuel]
    by_cases h0 : m = 0
    · simp [h0]
    · simp only [if_neg h0]
      by_cases hlt : m < n
      · simp only [if_pos hlt, if_neg h0]
        exact ih m (n % m) h0
      · simp only [if_neg hlt, if_neg hn]
        exact ih n (m % n) hn

/-- Unfolding equation for `foldGcd` when the pairwise `gcd` aborts. -/
theorem foldGcd_cons_none {d m : Nat} {rest : List Nat} (h : gcd d m = none) :
    foldGcd d (m :: rest) = none := by
  rw [foldGcd, h]

/-- Unfolding equation for `foldGcd` when the pairwise `gcd` succeeds. -/
theorem foldGcd_cons_some {d m d2 : Nat} {rest : List Nat} (h : gcd d m = some d2) :
    foldGcd d (m :: rest) = foldGcd d2 rest := by
  rw [foldGcd, h]

/-- Unfolding equation for `parseArgs` when the head argument is bad. -/
theorem parseArgs_cons_none {a : String} {rest : List String} (h : parseU64 a = none) :
    parseArgs (a :: rest) = none := by
  rw [parseArgs, h]

/-- Unfolding equation for `parseArgs` when the head argument parses. -/
theorem parseArgs_cons_some {a : String} {rest : List String} {v : Nat}
    (h : parseU64 a = some v) :
    parseArgs (a :: rest) = (parseArgs rest).map (fun tl => v :: tl) := by
  rw [parseArgs, h]

/-- Unfolding equation for `run` on a parse failure. -/
theorem run_parse_none {args : List String} (hp : parseArgs args = none) :
    run args = RunResult.parseError msg := by
  rw [run, hp]

/-- Unfolding equation for `run` when parsing yields the empty sequence. -/
theorem run_parse_nil {args : List String} (hp : parseArgs args = some []) :
    run args = RunResult.usage := by
  rw [run, hp]

/-- Unfolding equation for `run` when parsing yields a non-empty sequence:
the outcome is decided by the `gcd` fold (the trailing `gcd 2 3` of `main`
evaluates to `some 1` and never alters the outcome). -/
theorem run_parse_cons {args : List String} {d : Nat} {rest : List Nat}
    (hp : parseArgs args = some (d :: rest)) :
    run args = (match foldGcd d rest with
      | none => RunResult.assertFail
      | some g => RunResult.output (d :: rest) g) := by
  rw [run, hp]
  show (match foldGcd d rest with
    | none => RunResult.assertFail
    | some g =>
      match gcd 2 3 with
      | none => RunResult.assertFail
      | some _ => RunResult.output (d :: rest) g) = _
  cases hf : foldGcd d rest with
  | none => rfl
  | some g => rfl

/-- A first bad argument makes the whole parse fail, whatever follows it. -/
theorem parseArgs_append_none : ∀ (pre : List String) (vals : List Nat),
    parseArgs pre = some vals → ∀ (bad : String) (rest : List String),
    parseU64 bad = none → parseArgs (pre ++ bad :: rest) = none := by
  intro pre
  induction pre with
  | nil => intro vals _ bad rest hbad; rw [List.nil_append, parseArgs_cons_none hbad]
  | cons a pre2 ih =>
    intro vals hp bad rest hbad
    cases ha : parseU64 a with
    | none => rw [parseArgs_cons_none ha] at hp; exact Option.noConfusion hp
    | some v =>
      rw [parseArgs_cons_some ha] at hp
      rw [List.cons_append, parseArgs_cons_some ha]
      cases hp2 : parseArgs pre2 with
      | none => rw [hp2] at hp; exact Option.noConfusion hp
      | some vals2 => rw [ih vals2 hp2 bad rest hbad]; rfl

/-- A zero anywhere in the folded data aborts the fold, provided the zero is
combined with something: either it sits among the later elements, or it is
the initial accumulator and at least one further element exists. -/
theorem foldGcd_eq_none : ∀ (t : List Nat) (d : Nat),
    0 ∈ t ∨ (d = 0 ∧ t ≠ []) → foldGcd d t = none := by
  intro t
  induction t with
  | nil =>
    intro d h
    rcases h with h | ⟨_, h⟩
    · exact absurd h (List.not_mem_nil 0)
    · exact absurd rfl h
  | cons m rest ih =>
    intro d h
    by_cases hd : d = 0
    · exact foldGcd_cons_none (gcd_eq_none d m (Or.inl hd))
    · by_cases hm : m = 0
      · exact foldGcd_cons_none (gcd_eq_none d m (Or.inr hm))
      · have h0 : 0 ∈ rest := by
          rcases h with h | ⟨hd0, _⟩
          · rcases List.mem_cons.mp h with h | h
            · exact absurd h.symm hm
            · exact h
          · exact absurd hd0 hd
        rw [foldGcd_cons_some (gcd_eq d m hd hm)]
        exact ih (Nat.gcd d m) (Or.inl h0)

/-- The loop body on a state whose second operand is smaller swaps and then
reduces: the new state is `(m, n % m)`. -/
theorem codeStep_of_lt {n m : Nat} (h : m < n) : codeStep (n, m) = (m, n % m) := by
  simp [codeStep, h]

/-- The loop body on a state whose second operand is at least the first
reduces in place: the new state is `(n, m % n)`. -/
theorem codeStep_of_ge {n m : Nat} (h : ¬ m < n) : codeStep (n, m) = (n, m % n) := by
  simp [codeStep, h]

/-- Iterating the loop body from any state with non-zero first operand
reaches, after finitely many steps, a state whose second operand is zero and
whose first operand is the mathematical GCD of the starting operands. -/
theorem codeStep_reaches_zero : ∀ (fuel n m : Nat), n ≠ 0 → m < fuel →
    ∃ k, ((codeStep^[k]) (n, m)).2 = 0 ∧ ((codeStep^[k]) (n, m)).1 = Nat.gcd n m := by
  intro fuel
  induction fuel with
  | zero => intro n m _ hm; omega
  | succ fuel ih =>
    intro n m hn hm
    by_cases h0 : m = 0
    · subst h0
      exact ⟨0, rfl, (Nat.gcd_zero_right n).symm⟩
    · by_cases hlt : m < n
      · obtain ⟨k, h1, h2⟩ :=
          ih m (n % m) h0 (by have := Nat.mod_lt n (Nat.pos_of_ne_zero h0); omega)
        refine ⟨k + 1, ?_, ?_⟩
        · rw [Function.iterate_succ_apply, codeStep_of_lt hlt]
          exact h1
        · rw [Function.iterate_succ_apply, codeStep_of_lt hlt, h2]
          rw [Nat.gcd_comm m (n % m), ← Nat.gcd_rec m n, Nat.gcd_comm m n]
      · obtain ⟨k, h1, h2⟩ :=
          ih n (m % n) hn (by have := Nat.mod_lt m (Nat.pos_of_ne_zero hn); omega)
        refine ⟨k + 1, ?_, ?_⟩
        · rw [Function.iterate_succ_apply, codeStep_of_ge hlt]
          exact h1
        · rw [Function.iterate_succ_apply, codeStep_of_ge hlt, h2]
          rw [Nat.gcd_comm n (m % n), ← Nat.gcd_rec n m]

instance : RightCommutative Nat.gcd :=
  ⟨fun b a1 a2 => by rw [Nat.gcd_assoc, Nat.gcd_comm a1 a2, ← Nat.gcd_assoc]⟩

/-- On an accumulator and elements that are all non-zero, the program's fold
succeeds and agrees with the pure left fold of the mathematical GCD. -/
theorem foldGcd_eq : ∀ (t : List Nat) (d : Nat), d ≠ 0 → (∀ x ∈ t, x ≠ 0) →
    foldGcd d t = some (List.foldl Nat.gcd d t) := by
  intro t
  induction t with
  | nil => intro d _ _; rfl
  | cons m rest ih =>
    intro d hd hall
    have hm : m ≠ 0 := hall m (List.mem_cons_self m rest)
    have hdm : Nat.gcd d m ≠ 0 := fun h => hd (Nat.gcd_eq_zero_iff.mp h).1
    rw [foldGcd_cons_some (gcd_eq d m hd hm), List.foldl_cons]
    exact ih (Nat.gcd d m) hdm (fun x hx => hall x (List.mem_cons_of_mem m hx))

/-- Folding from the head is folding from the neutral element 0 over the
whole list. -/
theorem foldl_gcd_cons (d : Nat) (t : List Nat) :
    List.foldl Nat.gcd d t = List.foldl Nat.gcd 0 (d :: t) := by
  rw [List.foldl_cons, Nat.gcd_zero_left]

/-- Claim C1: for all non-zero unsigned 64-bit integers `a` and `b`,
`gcd a b` returns the unique mathematical greatest common divisor of `a` and
`b`: the result divides both `a` and `b`, and no larger common divisor
exists. -/
theorem gcd_returns_greatest_common_divisor (a b : Nat) (ha : a ≠ 0) (hb : b ≠ 0)
    (_ha64 : a < 2 ^ 64) (_hb64 : b < 2 ^ 64) :
    ∃ g, gcd a b = some g ∧ g ∣ a ∧ g ∣ b ∧ ∀ c, c ∣ a → c ∣ b → c ≤ g := by
  refine ⟨Nat.gcd a b, gcd_eq a b ha hb, Nat.gcd_dvd_left a b, Nat.gcd_dvd_right a b, ?_⟩
  intro c hca hcb
  exact Nat.le_of_dvd (Nat.gcd_pos_of_pos_left b (Nat.pos_of_ne_zero ha))
    (Nat.dvd_gcd hca hcb)

/-- Witness for claim C1 at the concrete input (4, 6). -/
theorem gcd_returns_greatest_common_divisor_witness :
    ∃ g, gcd 4 6 = some g ∧ g ∣ 4 ∧ g ∣ 6 ∧ ∀ c, c ∣ 4 → c ∣ 6 → c ≤ g :=
  gcd_returns_greatest_common_divisor 4 6 (by decide) (by decide) (by decide) (by decide)

/-- Counterexample to claim C2 as stated: the argument list containing only
the literal 0 parses successfully, contains 0, yet does not halt with the
precondition failure; it prints the result line reporting GCD 0. -/
theorem zero_single_arg_prints_result :
    run ["0"] = RunResult.output [0] 0 ∧ run ["0"] ≠ RunResult.assertFail := by
  constructor
  · rfl
  · decide

/-- Claim C2 as amended: for every argument list of at least two arguments in
which some argument is the literal 0 (and all arguments parse successfully),
the run halts with the gcd precondition (assertion) failure rather than
printing a result.  (A single argument 0 instead prints a result line: the
fold makes no gcd call.) -/
theorem zero_among_two_or_more_args_aborts (args : List String) (nums : List Nat)
    (hp : parseArgs args = some nums) (hlen : 2 ≤ nums.length) (h0 : 0 ∈ nums) :
    run args = RunResult.assertFail := by
  rcases nums with _ | ⟨d, nums2⟩
  · simp at hlen
  rcases nums2 with _ | ⟨m, rest⟩
  · simp at hlen
  rw [run_parse_cons hp, foldGcd_eq_none (m :: rest) d ?h]
  case h =>
    rcases List.mem_cons.mp h0 with h | h
    · exact Or.inr ⟨h.symm, by simp⟩
    · exact Or.inl h

/-- Witness for the amended claim C2 at the concrete input given by the
specification, namely the argument list 0, 5: the run aborts with the
precondition violation. -/
theorem zero_among_two_or_more_args_aborts_witness :
    run ["0", "5"] = RunResult.assertFail :=
  zero_among_two_or_more_args_aborts ["0", "5"] [0, 5] (by decide) (by decide) (by decide)

/-- Counterexample to claim C3 as stated: on the input arguments 330 and
2431 the program computes 11, not 33 (2431 = 11 * 13 * 17 has no factor 3,
so the greatest common divisor of 330 and 2431 is 11). -/
theorem gcd_330_2431_is_11_not_33 :
    gcd 330 2431 = some 11 ∧ gcd 330 2431 ≠ some 33 := by
  constructor
  · rfl
  · decide

/-- Claim C3 as amended: for the input arguments 330 and 2431 the program's
computed GCD is 11, and the run prints the corresponding result. -/
theorem run_330_2431_outputs_11 :
    run ["330", "2431"] = RunResult.output [330, 2431] 11 ∧ gcd 330 2431 = some 11 := by
  constructor
  · rfl
  · rfl

/-- Counterexample to claim C4 as stated: on the input arguments 12, abc the
run does abort with a parse error, but a line has already been printed to the
output stream before the abort (the unconditional long text line printed at
the top of `main`), so "no line is printed to the output stream before the
abort" fails. -/
theorem parse_error_still_prints_intro_line :
    run ["12", "abc"] = RunResult.parseError msg ∧ stdoutLines ["12", "abc"] ≠ [] := by
  constructor
  · rfl
  · decide

/-- Claim C4 as amended: if any command-line argument fails to parse as a
base-10 unsigned 64-bit integer, the process aborts at the first such
argument with the message "Error parsing the argument", before any GCD
computation, and prints no result line: the only line on the output stream
before the abort is the unconditional introductory text line. -/
theorem parse_error_aborts_without_result_line (pre : List String) (bad : String)
    (rest : List String) (vals : List Nat)
    (hpre : parseArgs pre = some vals) (hbad : parseU64 bad = none) :
    run (pre ++ bad :: rest) = RunResult.parseError msg ∧
      msg = "Error parsing the argument" ∧
      stdoutLines (pre ++ bad :: rest) = [longText] ∧
      exitCode (pre ++ bad :: rest) = none := by
  have h := parseArgs_append_none pre vals hpre bad rest hbad
  refine ⟨run_parse_none h, rfl, ?_, ?_⟩
  · rw [stdoutLines, run_parse_none h]
  · rw [exitCode, run_parse_none h]

/-- Witness for the amended claim C4 at the concrete input given by the
specification, namely the argument list 12, abc. -/
theorem parse_error_aborts_without_result_line_witness :
    run (["12"] ++ "abc" :: []) = RunResult.parseError msg ∧
      msg = "Error parsing the argument" ∧
      stdoutLines (["12"] ++ "abc" :: []) = [longText] ∧
      exitCode (["12"] ++ "abc" :: []) = none :=
  parse_error_aborts_without_result_line ["12"] "abc" [] [12] (by decide) (by decide)

/-- Claim C5: on zero arguments the program writes the usage message
"Usage: gcd <UINT>+" to the error stream and terminates with exit status 1,
computing no GCD and printing no result line (the output stream carries only
the unconditional introductory text line). -/
theorem usage_on_empty_args :
    run [] = RunResult.usage ∧
      stderrLines [] = ["Usage: gcd <UINT>+"] ∧
      exitCode [] = some 1 ∧
      stdoutLines [] = [longText] := by
  refine ⟨rfl, rfl, rfl, rfl⟩

/-- Claim C6: for all non-zero inputs the gcd loop terminates: after finitely
many iterations of the loop body the second operand reaches zero, and the
function returns the first operand of that final state. -/
theorem gcd_loop_terminates (n m : Nat) (hn : n ≠ 0) (hm : m ≠ 0) :
    ∃ k, ((codeStep^[k]) (n, m)).2 = 0 ∧ gcd n m = some (((codeStep^[k]) (n, m)).1) := by
  obtain ⟨k, h1, h2⟩ := codeStep_reaches_zero (m + 1) n m hn (Nat.lt_succ_self m)
  exact ⟨k, h1, by rw [h2, gcd_eq n m hn hm]⟩

/-- Witness for claim C6 at the concrete input (6, 4). -/
theorem gcd_loop_terminates_witness :
    ∃ k, ((codeStep^[k]) ((6 : Nat), (4 : Nat))).2 = 0 ∧
      gcd 6 4 = some (((codeStep^[k]) ((6 : Nat), (4 : Nat))).1) :=
  gcd_loop_terminates 6 4 (by decide) (by decide)

/-- Claim C7: the left-to-right fold of `gcd` over a non-empty sequence of
non-zero values (first element as initial accumulator) is order-independent:
two permutations of the same multiset of non-zero values fold to the same
final result. -/
theorem foldGcd_perm_invariant (d1 : Nat) (t1 : List Nat) (d2 : Nat) (t2 : List Nat)
    (hperm : List.Perm (d1 :: t1) (d2 :: t2)) (hnz : ∀ x ∈ d1 :: t1, x ≠ 0) :
    foldGcd d1 t1 = foldGcd d2 t2 := by
  have hnz2 : ∀ x ∈ d2 :: t2, x ≠ 0 := fun x hx => hnz x (hperm.mem_iff.mpr hx)
  have hd1 : d1 ≠ 0 := hnz d1 (List.mem_cons_self d1 t1)
  have hd2 : d2 ≠ 0 := hnz2 d2 (List.mem_cons_self d2 t2)
  rw [foldGcd_eq t1 d1 hd1 (fun x hx => hnz x (List.mem_cons_of_mem d1 hx)),
    foldGcd_eq t2 d2 hd2 (fun x hx => hnz2 x (List.mem_cons_of_mem d2 hx)),
    foldl_gcd_cons d1 t1, foldl_gcd_cons d2 t2]
  exact congrArg some (hperm.foldl_eq 0)

/-- Witness for claim C7: the sequences 2, 4, 6 and 4, 2, 6 are permutations
of one another and fold to the same result. -/
theorem foldGcd_perm_invariant_witness : foldGcd 2 [4, 6] = foldGcd 4 [2, 6] :=
  foldGcd_perm_invariant 2 [4, 6] 4 [2, 6] (List.Perm.swap 4 2 [6]) (by decide)

/-- Counterexample to claim C8 as stated: at the state (2, 3) the code's loop
body yields (2, 1) (it replaces the second operand with second mod first),
while the step described by the specification (replace the second operand
with the remainder of dividing the first by the second) yields (2, 2).  The
two step functions differ, so the loop body is not equivalent to the
described step. -/
theorem codeStep_ne_specStep :
    codeStep (2, 3) = (2, 1) ∧ specStep (2, 3) = (2, 2) ∧
      codeStep (2, 3) ≠ specStep (2, 3) := by
  exact ⟨rfl, rfl, by decide⟩

/-- Claim C8 as amended: each iteration of the implemented gcd loop performs
this step: if the second operand is smaller than the first the operands are
swapped, and then the second operand is replaced with the remainder of
dividing the *second* operand by the *first*; equivalently, the loop body
maps a state to the pair of the smaller operand and the larger operand
reduced modulo the smaller. -/
theorem codeStep_eq_orderedStep : ∀ nm : Nat × Nat, codeStep nm = orderedStep nm := by
  intro nm
  rcases nm with ⟨n, m⟩
  by_cases h : m < n
  · rw [codeStep_of_lt h, orderedStep]
    simp [Nat.min_eq_right h.le, Nat.max_eq_left h.le]
  · have h2 : n ≤ m := Nat.le_of_not_lt h
    rw [codeStep_of_ge h, orderedStep]
    simp [Nat.min_eq_left h2, Nat.max_eq_right h2]

/-- Claim C9: an input of exactly one successfully parsed argument `v`
(including `v = 0`) makes the fold return its accumulator with no gcd call,
and the program prints the result line for `v` and exits with status 0. -/
theorem single_arg_prints_itself (s : String) (v : Nat) (hp : parseU64 s = some v) :
    run [s] = RunResult.output [v] v ∧
      stdoutLines [s] = [longText, resultLine [v] v] ∧
      exitCode [s] = some 0 ∧
      foldGcd v [] = some v := by
  have hargs : parseArgs [s] = some [v] := by rw [parseArgs_cons_some hp]; rfl
  have hrun : run [s] = RunResult.output [v] v := by
    rw [run_parse_cons hargs]
    rfl
  refine ⟨hrun, ?_, ?_, rfl⟩
  · rw [stdoutLines, hrun]
  · rw [exitCode, hrun]

/-- Witness for claim C9 at the single argument 0: the program reports GCD 0
without any precondition failure; the printed line is computed explicitly. -/
theorem single_arg_prints_itself_witness :
    parseU64 "0" = some 0 ∧
      (run ["0"] = RunResult.output [0] 0 ∧
        stdoutLines ["0"] = [longText, resultLine [0] 0] ∧
        exitCode ["0"] = some 0 ∧
        foldGcd 0 [] = some 0) ∧
      resultLine [0] 0 = "The greatest common divisor of [0] is 0" :=
  ⟨rfl, single_arg_prints_itself "0" 0 rfl, rfl⟩

/-- Claim C10: under the precondition that both arguments of `gcd` are
non-zero, the divisor of the remainder operation inside the loop is non-zero
at every iteration (the loop never reaches its division-by-zero failure, for
any step budget), so `gcd` can fail only at its entry assertion: it aborts
exactly when one of its arguments is zero. -/
theorem gcd_fails_only_at_entry :
    (∀ fuel n m : Nat, n ≠ 0 → m ≠ 0 → gcd_loop_fuel fuel n m ≠ LoopResult.divByZero) ∧
      (∀ n m : Nat, gcd n m = none ↔ (n = 0 ∨ m = 0)) := by
  constructor
  · intro fuel n m hn _
    exact gcd_loop_fuel_no_div_by_zero fuel n m hn
  · intro n m
    constructor
    · intro h
      by_contra hc
      push_neg at hc
      rw [gcd_eq n m hc.1 hc.2] at h
      exact Option.noConfusion h
    · exact gcd_eq_none n m

/-- Witness for claim C10: a concrete loop run that never divides by zero,
and the concrete aborting entry (0, 5). -/
theorem gcd_fails_only_at_entry_witness :
    gcd_loop_fuel 5 6 4 ≠ LoopResult.divByZero ∧
      (gcd 0 5 = none ↔ ((0 : Nat) = 0 ∨ (5 : Nat) = 0)) :=
  ⟨gcd_fails_only_at_entry.1 5 6 4 (by decide) (by decide), gcd_fails_only_at_entry.2 0 5⟩

end Basics
